import Mathlib

/-!
Shallow embedding of `downloader.py` from soundcloud-likes-backup.

The embedded pieces are:
* `SoundCloudDownloader._sanitize_filename` — a pure string function;
* the three resolver coroutines `_try_scdownloader`, `_try_soundcloudmp3`,
  `_try_downloadsound` — structurally identical up to URL template and CSS
  selector, so they are embedded as one generic body parameterised by the
  network environment of a single attempt;
* `SoundCloudDownloader.download_track` — the fallback engine.

The filesystem is an explicit state (a set of directories and an
association list of file contents), logging is an explicit event list,
and the network is an oracle (`ResolverEnv`) describing what the two HTTP
GETs of one resolver attempt return, including the possibility that a
call raises or that the chunked body read raises mid-stream.
-/

namespace SCDL

/-- Raw bytes, as delivered by the network and stored in files. -/
abbrev Bytes := List Nat

/-- A filesystem path, as the list of its segments. -/
abbrev FsPath := List String

/-- Concatenation of the 8 KiB chunks streamed from a response body
(`f.write(chunk)` in a loop writes exactly their concatenation). -/
def concatChunks : List Bytes → Bytes
  | [] => []
  | c :: t => c ++ concatChunks t

/-- The log lines emitted by `downloader.py`, abstracted to events. -/
inductive LogEvent where
  /-- logger.info "Track already exists: \x7boutput_path\x7d" -/
  | skip (path : FsPath)
  /-- logger.info "Successfully downloaded: \x7boutput_path\x7d" -/
  | success (path : FsPath)
  /-- logger.error "Error with service \x7bservice.name\x7d: \x7be\x7d" (engine loop) -/
  | serviceError (name : String)
  /-- logger.error "Error in \x7bresolver\x7d: \x7be\x7d" (inside a resolver) -/
  | resolverError (name : String)
  /-- logger.error "Failed to download track: \x7btitle\x7d" -/
  | terminalFailure (title : String)
  deriving DecidableEq

/-- Filesystem state: existing directories and file contents. -/
structure FS where
  dirs : List FsPath
  files : List (FsPath × Bytes)
  deriving DecidableEq

/-- Content of the file at `p`, if it exists. -/
def FS.fileContent (fs : FS) (p : FsPath) : Option Bytes :=
  (fs.files.find? (fun e => decide (e.1 = p))).map (fun e => e.2)

/-- `Path.exists()` on a file path. -/
def FS.fileExists (fs : FS) (p : FsPath) : Bool :=
  (fs.fileContent p).isSome

/-- `open(p, 'wb')` followed by writing `data`: truncating write, the old
content (if any) is discarded. -/
def FS.writeFile (fs : FS) (p : FsPath) (data : Bytes) : FS :=
  { fs with files := (p, data) :: fs.files.filter (fun e => decide (¬ e.1 = p)) }

/-- `Path.mkdir(exist_ok=True)`: succeeds if the directory already exists
or its parent does; raises (FileNotFoundError) otherwise. -/
def FS.mkdirExistOk (fs : FS) (p : FsPath) : Except Unit FS :=
  if p ∈ fs.dirs then .ok fs
  else if p.dropLast ∈ fs.dirs then .ok { fs with dirs := p :: fs.dirs }
  else .error ()

/-- Decidable precondition under which `mkdirExistOk` does not raise. -/
def FS.canMkdir (fs : FS) (p : FsPath) : Bool :=
  decide (p ∈ fs.dirs) || decide (p.dropLast ∈ fs.dirs)

/-- `pathlib`'s `/` operator on a single segment: joining with the empty
string leaves the path unchanged (pathlib drops empty components). -/
def pathJoin (p : FsPath) (seg : String) : FsPath :=
  if seg = "" then p else p ++ [seg]

/-- The characters removed by `re.sub(r'[<>:"/\\|?*]', '', filename)`. -/
def invalidChars : List Char := ['<', '>', ':', '"', '/', '\\', '|', '?', '*']

/-- `SoundCloudDownloader._sanitize_filename`: drop the invalid characters,
replace each space by an underscore, truncate to 200 characters. -/
def _sanitize_filename (filename : String) : String :=
  ⟨((filename.data.filter (fun c => decide (c ∉ invalidChars))).map
      (fun c => if c = ' ' then '_' else c)).take 200⟩

/-- Outcome of the first `session.get` of a resolver attempt: the transport
may raise, or a response arrives with a status and with what
`soup.find('a', \x7b'class': ...\x7d)` followed by `.get('href')` would yield
on its body (`none` = no download element, `some none` = element without a
link attribute, `some (some u)` = direct URL `u`). -/
inductive FirstGet where
  | raise
  | resp (status : Nat) (button : Option (Option String))
  deriving DecidableEq

/-- The chunked body read of the second GET: either all chunks arrive, or
the read raises after some chunks were already written. -/
inductive StreamSpec where
  | ok (chunks : List Bytes)
  | failAfter (written : List Bytes)
  deriving DecidableEq

/-- Outcome of the second `session.get` (the direct-download URL). -/
inductive SecondGet where
  | raise
  | resp (status : Nat) (stream : StreamSpec)
  deriving DecidableEq

/-- The network environment seen by one resolver attempt. -/
structure ResolverEnv where
  first : FirstGet
  second : SecondGet
  deriving DecidableEq

/-- Result of running the body of a resolver (the code inside its
`try:` block): a value or a raised exception, the filesystem, and the
number of HTTP GETs issued. -/
structure BodyResult where
  result : Except Unit Bool
  fs : FS
  net : Nat

/-- The body shared by `_try_scdownloader`, `_try_soundcloudmp3` and
`_try_downloadsound` (they differ only in endpoint URL and CSS selector,
both absorbed into `ResolverEnv`): GET the conversion page, check status,
extract the download link, GET it, check status, then stream the body to
`output_path` in chunks through a truncating binary-write `open`. -/
def resolverBody (env : ResolverEnv) (fs : FS) (output_path : FsPath) : BodyResult :=
  match env.first with
  | .raise => ⟨.error (), fs, 1⟩
  | .resp status button =>
    if status ≠ 200 then ⟨.ok false, fs, 1⟩
    else
      match button with
      | none => ⟨.ok false, fs, 1⟩
      | some none => ⟨.ok false, fs, 1⟩
      | some (some _direct_url) =>
        match env.second with
        | .raise => ⟨.error (), fs, 2⟩
        | .resp status2 stream =>
          if status2 ≠ 200 then ⟨.ok false, fs, 2⟩
          else
            match stream with
            | .ok chunks => ⟨.ok true, fs.writeFile output_path (concatChunks chunks), 2⟩
            | .failAfter written => ⟨.error (), fs.writeFile output_path (concatChunks written), 2⟩

/-- The value component of a resolver body depends only on the environment. -/
def envOutcome (env : ResolverEnv) : Except Unit Bool :=
  match env.first with
  | .raise => .error ()
  | .resp status button =>
    if status ≠ 200 then .ok false
    else
      match button with
      | none => .ok false
      | some none => .ok false
      | some (some _) =>
        match env.second with
        | .raise => .error ()
        | .resp status2 stream =>
          if status2 ≠ 200 then .ok false
          else
            match stream with
            | .ok _ => .ok true
            | .failAfter _ => .error ()

/-- Whether the attempt succeeds (body returns `True`). -/
def envSucceeds (env : ResolverEnv) : Bool :=
  match envOutcome env with
  | .ok true => true
  | _ => false

/-- Whether the body raises (and the resolver's `except` catches). -/
def envRaises (env : ResolverEnv) : Bool :=
  match envOutcome env with
  | .error _ => true
  | _ => false

/-- Whether the attempt reaches the streaming step, i.e. executes
`open(output_path, 'wb')`. -/
def reachesStream (env : ResolverEnv) : Bool :=
  match env.first with
  | .resp status (some (some _)) =>
    status == 200 &&
      (match env.second with
       | .resp status2 _ => status2 == 200
       | .raise => false)
  | _ => false

/-- The bytes written to the destination when the streaming step runs:
the full body for a complete read, the chunks received before the raise
for an interrupted one. -/
def envWritten (env : ResolverEnv) : Bytes :=
  match env.second with
  | .resp _ (.ok chunks) => concatChunks chunks
  | .resp _ (.failAfter written) => concatChunks written
  | .raise => []

/-- Result of a whole resolver call as the engine sees it: the returned
value (or an exception escaping the resolver), the filesystem, the log
events emitted inside the resolver, and the number of GETs issued. -/
structure RunResult where
  result : Except Unit Bool
  fs : FS
  logs : List LogEvent
  net : Nat

/-- A resolver with its `try/except Exception` wrapper: the body's value is
returned as is, and a raised exception is caught, logged under the
resolver's identity (`logger.error "Error in \x7bname\x7d: ..."`) and turned
into `False`. -/
def resolverRun (iname : String) (env : ResolverEnv) (fs : FS) (output_path : FsPath) :
    RunResult :=
  let b := resolverBody env fs output_path
  match b.result with
  | .ok res => ⟨.ok res, b.fs, [], b.net⟩
  | .error _ => ⟨.ok false, b.fs, [.resolverError iname], b.net⟩

/-- A download service as the engine sees it: a name (`service.__name__`)
and the effect of `await service(url, output_path)` on the state. -/
structure Service where
  name : String
  run : FS → FsPath → RunResult

/-- One of the source's resolver methods, as a service: engine-visible name
`ename` (e.g. "_try_scdownloader"), internal log name `iname` (e.g.
"scdownloader"), behaving per the network environment of this attempt. -/
def resolverService (ename iname : String) (env : ResolverEnv) : Service :=
  ⟨ename, fun fs p => resolverRun iname env fs p⟩

/-- `_try_scdownloader` (scdownloader.io, selector class "download-btn"). -/
def _try_scdownloader (env : ResolverEnv) : Service :=
  resolverService "_try_scdownloader" "scdownloader" env

/-- `_try_soundcloudmp3` (soundcloudmp3.org, selector class "download-button"). -/
def _try_soundcloudmp3 (env : ResolverEnv) : Service :=
  resolverService "_try_soundcloudmp3" "soundcloudmp3" env

/-- `_try_downloadsound` (downloadsound.cloud, selector class "download-link"). -/
def _try_downloadsound (env : ResolverEnv) : Service :=
  resolverService "_try_downloadsound" "downloadsound" env

/-- A prefix entry for a generic priority list: engine name, internal log
name, and the attempt's network environment. -/
def mkResolverService (q : String × String × ResolverEnv) : Service :=
  resolverService q.1 q.2.1 q.2.2

/-- Result of the engine's `for service in download_services` loop. -/
structure LoopResult where
  fs : FS
  logs : List LogEvent
  net : Nat
  invoked : List String
  succeeded : Bool

/-- The fallback loop of `download_track`: call each service in order; on
`True` log success and stop; on `False` continue; on a raised exception log
`Error with service ...` and continue. -/
def tryServices : List Service → FS → FsPath → LoopResult
  | [], fs, _ => ⟨fs, [], 0, [], false⟩
  | s :: rest, fs, p =>
    let r := s.run fs p
    match r.result with
    | .ok true => ⟨r.fs, r.logs ++ [.success p], r.net, [s.name], true⟩
    | .ok false =>
      let t := tryServices rest r.fs p
      ⟨t.fs, r.logs ++ t.logs, r.net + t.net, s.name :: t.invoked, t.succeeded⟩
    | .error _ =>
      let t := tryServices rest r.fs p
      ⟨t.fs, r.logs ++ [.serviceError s.name] ++ t.logs, r.net + t.net,
        s.name :: t.invoked, t.succeeded⟩

/-- A track record as produced by the collector. -/
structure Track where
  title : String
  artist : String
  url : String
  deriving DecidableEq

/-- Observable outcome of one `download_track` call. -/
structure EngineResult where
  fs : FS
  logs : List LogEvent
  net : Nat
  invoked : List String

/-- `artist_dir = self.download_dir / self._sanitize_filename(track['artist'])`. -/
def artistDir (download_dir : FsPath) (track : Track) : FsPath :=
  pathJoin download_dir (_sanitize_filename track.artist)

/-- `output_path = artist_dir / f"\x7bsanitized_title\x7d.mp3"`. -/
def outputPath (download_dir : FsPath) (track : Track) : FsPath :=
  pathJoin (artistDir download_dir track) (_sanitize_filename track.title ++ ".mp3")

/-- `SoundCloudDownloader.download_track`: compute the sanitized artist
directory and create it (`mkdir(exist_ok=True)` raising propagates), skip
if the destination exists, otherwise try the services in priority order and
log a terminal failure if all are exhausted. -/
def download_track (download_dir : FsPath) (download_services : List Service)
    (track : Track) (fs : FS) : Except Unit EngineResult :=
  match fs.mkdirExistOk (artistDir download_dir track) with
  | .error e => .error e
  | .ok fs1 =>
    if fs1.fileExists (outputPath download_dir track) then
      .ok ⟨fs1, [.skip (outputPath download_dir track)], 0, []⟩
    else
      let t := tryServices download_services fs1 (outputPath download_dir track)
      if t.succeeded then .ok ⟨t.fs, t.logs, t.net, t.invoked⟩
      else .ok ⟨t.fs, t.logs ++ [.terminalFailure track.title], t.net, t.invoked⟩

/-- Log events that are the per-track terminal failure line. -/
def isTerminalFailure : LogEvent → Bool
  | .terminalFailure _ => true
  | _ => false

/-- Destination-existence check through an engine outcome. -/
def engineFileExists (e : Except Unit EngineResult) (p : FsPath) : Bool :=
  match e with
  | .ok r => r.fs.fileExists p
  | .error _ => false

/-- A network environment in which the attempt succeeds with body bytes
[1, 2, 3] ++ [4]. -/
def okEnv : ResolverEnv :=
  ⟨.resp 200 (some (some "https://cdn.example/x.mp3")), .resp 200 (.ok [[1, 2, 3], [4]])⟩

/-- A filesystem already holding stale bytes at the destination. -/
def staleFs : FS :=
  ⟨[["downloads"]], [(["downloads", "t.mp3"], [9, 9])]⟩

/-- A network environment failing before any file is opened (HTTP 404 on
the conversion page). -/
def failEnv : ResolverEnv := ⟨.resp 404 none, .raise⟩

/-- A second pre-stream failure shape (download element absent on a 200
page, then transport raise). -/
def failEnv2 : ResolverEnv := ⟨.resp 200 none, .raise⟩

lemma sanitize_data (s : String) :
    (_sanitize_filename s).data =
      ((s.data.filter (fun c => decide (c ∉ invalidChars))).map
        (fun c => if c = ' ' then '_' else c)).take 200 := rfl

/-- Every character of a sanitized name is valid and is not a space. -/
lemma sanitize_mem (s : String) :
    ∀ c ∈ (_sanitize_filename s).data, c ∉ invalidChars ∧ c ≠ ' ' := by
  intro c hc
  rw [sanitize_data] at hc
  have hc2 := List.mem_of_mem_take hc
  obtain ⟨a, ha, rfl⟩ := List.mem_map.mp hc2
  obtain ⟨ham, hav'⟩ := List.mem_filter.mp ha
  have hav : a ∉ invalidChars := of_decide_eq_true hav'
  by_cases hsp : a = ' '
  · subst hsp
    exact ⟨by decide, by decide⟩
  · rw [if_neg hsp]
    exact ⟨hav, hsp⟩

/-- A sanitized name has at most 200 characters. -/
lemma sanitize_len (s : String) : (_sanitize_filename s).length ≤ 200 := by
  have : (_sanitize_filename s).length = (_sanitize_filename s).data.length := rfl
  rw [this, sanitize_data, List.length_take]
  exact min_le_left _ _

lemma resolverBody_result (env : ResolverEnv) (fs : FS) (p : FsPath) :
    (resolverBody env fs p).result = envOutcome env := by
  unfold resolverBody envOutcome
  rcases env with ⟨first, second⟩
  cases first with
  | raise => rfl
  | resp status button =>
    by_cases h : status ≠ 200
    · simp [h]
    · simp only [h, if_false]
      cases button with
      | none => rfl
      | some link =>
        cases link with
        | none => rfl
        | some u =>
          cases second with
          | raise => rfl
          | resp status2 stream =>
            by_cases h2 : status2 ≠ 200
            · simp [h2]
            · simp only [h2, if_false]
              cases stream <;> rfl

lemma resolverBody_fs (env : ResolverEnv) (fs : FS) (p : FsPath) :
    (resolverBody env fs p).fs =
      if reachesStream env then fs.writeFile p (envWritten env) else fs := by
  unfold resolverBody reachesStream envWritten
  rcases env with ⟨first, second⟩
  cases first with
  | raise => rfl
  | resp status button =>
    by_cases h : status ≠ 200
    · have hb : (status == 200) = false := by
        simp only [beq_eq_false_iff_ne, ne_eq]
        exact h
      cases button with
      | none => simp [h]
      | some link =>
        cases link with
        | none => simp [h]
        | some u => simp [h, hb]
    · have hs : status = 200 := not_ne_iff.mp h
      subst hs
      simp only [ne_eq, not_true_eq_false, if_false]
      cases button with
      | none => simp
      | some link =>
        cases link with
        | none => simp
        | some u =>
          cases second with
          | raise => simp
          | resp status2 stream =>
            by_cases h2 : status2 ≠ 200
            · have hb2 : (status2 == 200) = false := by
                simp only [beq_eq_false_iff_ne, ne_eq]
                exact h2
              cases stream <;> simp [h2, hb2]
            · have hs2 : status2 = 200 := not_ne_iff.mp h2
              subst hs2
              cases stream <;> simp

lemma resolverBody_dirs (env : ResolverEnv) (fs : FS) (p : FsPath) :
    (resolverBody env fs p).fs.dirs = fs.dirs := by
  rw [resolverBody_fs]
  by_cases h : reachesStream env = true
  · simp [h, FS.writeFile]
  · simp [h]

lemma resolverRun_result (iname : String) (env : ResolverEnv) (fs : FS) (p : FsPath) :
    (resolverRun iname env fs p).result = .ok (envSucceeds env) := by
  have hb := resolverBody_result env fs p
  unfold resolverRun envSucceeds
  rw [← hb]
  simp only []
  cases h : (resolverBody env fs p).result with
  | ok b => cases b <;> rfl
  | error e => rfl

lemma resolverRun_fs (iname : String) (env : ResolverEnv) (fs : FS) (p : FsPath) :
    (resolverRun iname env fs p).fs = (resolverBody env fs p).fs := by
  unfold resolverRun
  simp only []
  cases h : (resolverBody env fs p).result <;> rfl

lemma resolverRun_logs (iname : String) (env : ResolverEnv) (fs : FS) (p : FsPath) :
    (resolverRun iname env fs p).logs =
      if envRaises env then [.resolverError iname] else [] := by
  have hb := resolverBody_result env fs p
  unfold resolverRun envRaises
  rw [← hb]
  simp only []
  cases h : (resolverBody env fs p).result with
  | ok b => rfl
  | error e => rfl

lemma resolverRun_dirs (iname : String) (env : ResolverEnv) (fs : FS) (p : FsPath) :
    (resolverRun iname env fs p).fs.dirs = fs.dirs := by
  rw [resolverRun_fs]
  exact resolverBody_dirs env fs p

/-- Writing a file makes its content the written bytes. -/
lemma fileContent_writeFile (fs : FS) (p : FsPath) (d : Bytes) :
    (fs.writeFile p d).fileContent p = some d := by
  simp [FS.writeFile, FS.fileContent, List.find?_cons_of_pos]

/-- A successful attempt reaches the streaming step. -/
lemma envSucceeds_reachesStream (env : ResolverEnv) (h : envSucceeds env = true) :
    reachesStream env = true := by
  rcases env with ⟨first, second⟩
  cases first with
  | raise => simp [envSucceeds, envOutcome] at h
  | resp status button =>
    by_cases hst : status = 200
    · subst hst
      cases button with
      | none => simp [envSucceeds, envOutcome] at h
      | some link =>
        cases link with
        | none => simp [envSucceeds, envOutcome] at h
        | some u =>
          cases second with
          | raise => simp [envSucceeds, envOutcome] at h
          | resp status2 stream =>
            by_cases hst2 : status2 = 200
            · subst hst2
              cases stream with
              | ok chunks => simp [reachesStream]
              | failAfter written => simp [envSucceeds, envOutcome] at h
            · simp [envSucceeds, envOutcome, hst2] at h
    · simp [envSucceeds, envOutcome, hst] at h

/-- After an attempt that reaches the streaming step, the destination file
holds exactly the bytes of that attempt. -/
lemma resolverRun_content (iname : String) (env : ResolverEnv) (fs : FS) (p : FsPath)
    (h : reachesStream env = true) :
    ((resolverRun iname env fs p).fs).fileContent p = some (envWritten env) := by
  rw [resolverRun_fs, resolverBody_fs, if_pos h]
  exact fileContent_writeFile fs p (envWritten env)

lemma mkdir_mem (fs : FS) (p : FsPath) (h : p ∈ fs.dirs) : fs.mkdirExistOk p = .ok fs := by
  unfold FS.mkdirExistOk
  rw [if_pos h]

lemma mkdir_canMkdir (fs : FS) (p : FsPath) (h : fs.canMkdir p = true) :
    ∃ fs1, fs.mkdirExistOk p = .ok fs1 ∧ fs1.files = fs.files := by
  unfold FS.canMkdir at h
  simp only [Bool.or_eq_true, decide_eq_true_eq] at h
  unfold FS.mkdirExistOk
  by_cases h1 : p ∈ fs.dirs
  · exact ⟨fs, by rw [if_pos h1], rfl⟩
  · have h2 : p.dropLast ∈ fs.dirs := by
      rcases h with h | h
      · exact absurd h h1
      · exact h
    refine ⟨{ fs with dirs := p :: fs.dirs }, ?_, rfl⟩
    rw [if_neg h1, if_pos h2]

lemma fileExists_congr (fs1 fs2 : FS) (p : FsPath) (h : fs1.files = fs2.files) :
    fs1.fileExists p = fs2.fileExists p := by
  unfold FS.fileExists FS.fileContent
  rw [h]

lemma tryServices_nil (fs : FS) (p : FsPath) :
    tryServices [] fs p = ⟨fs, [], 0, [], false⟩ := rfl

lemma tryServices_cons_success (s : Service) (rest : List Service) (fs : FS) (p : FsPath)
    (h : (s.run fs p).result = .ok true) :
    tryServices (s :: rest) fs p =
      ⟨(s.run fs p).fs, (s.run fs p).logs ++ [.success p], (s.run fs p).net, [s.name], true⟩ := by
  unfold tryServices
  simp only []
  rw [h]

lemma tryServices_cons_false (s : Service) (rest : List Service) (fs : FS) (p : FsPath)
    (h : (s.run fs p).result = .ok false) :
    tryServices (s :: rest) fs p =
      ⟨(tryServices rest (s.run fs p).fs p).fs,
        (s.run fs p).logs ++ (tryServices rest (s.run fs p).fs p).logs,
        (s.run fs p).net + (tryServices rest (s.run fs p).fs p).net,
        s.name :: (tryServices rest (s.run fs p).fs p).invoked,
        (tryServices rest (s.run fs p).fs p).succeeded⟩ := by
  conv_lhs => simp only [tryServices]
  rw [h]

/-- Iterating a fail-prefix of resolvers followed by a succeeding one:
exactly the prefix and the successful resolver are invoked, in order; the
loop stops with success; the destination holds the successful attempt's
bytes; the directory set is untouched. -/
lemma tryServices_prefix_fail (pres : List (String × String × ResolverEnv))
    (kename kiname : String) (kenv : ResolverEnv) (rest : List Service)
    (hk : envSucceeds kenv = true) :
    ∀ fs p, (∀ q ∈ pres, envSucceeds q.2.2 = false) →
      (tryServices (pres.map mkResolverService ++ resolverService kename kiname kenv :: rest)
          fs p).succeeded = true ∧
      (tryServices (pres.map mkResolverService ++ resolverService kename kiname kenv :: rest)
          fs p).invoked = pres.map (fun q => q.1) ++ [kename] ∧
      (tryServices (pres.map mkResolverService ++ resolverService kename kiname kenv :: rest)
          fs p).fs.fileContent p = some (envWritten kenv) ∧
      LogEvent.success p ∈
        (tryServices (pres.map mkResolverService ++ resolverService kename kiname kenv :: rest)
          fs p).logs ∧
      (tryServices (pres.map mkResolverService ++ resolverService kename kiname kenv :: rest)
          fs p).fs.dirs = fs.dirs := by
  induction pres with
  | nil =>
    intro fs p _
    have hrun : ((resolverService kename kiname kenv).run fs p).result = .ok true := by
      simp only [resolverService]
      rw [resolverRun_result, hk]
    rw [List.map_nil, List.nil_append,
      tryServices_cons_success (resolverService kename kiname kenv) rest fs p hrun]
    refine ⟨rfl, rfl, ?_, ?_, ?_⟩
    · simp only [resolverService]
      exact resolverRun_content kiname kenv fs p (envSucceeds_reachesStream kenv hk)
    · exact List.mem_append_right _ (List.mem_singleton.mpr rfl)
    · simp only [resolverService]
      exact resolverRun_dirs kiname kenv fs p
  | cons q pres ih =>
    intro fs p hpre
    have hq : envSucceeds q.2.2 = false := hpre q (List.mem_cons_self q pres)
    have hrun : ((mkResolverService q).run fs p).result = .ok false := by
      simp only [mkResolverService, resolverService]
      rw [resolverRun_result, hq]
    rw [List.map_cons, List.cons_append,
      tryServices_cons_false (mkResolverService q) _ fs p hrun]
    have hpre2 : ∀ q2 ∈ pres, envSucceeds q2.2.2 = false :=
      fun q2 hq2 => hpre q2 (List.mem_cons_of_mem q hq2)
    obtain ⟨ih1, ih2, ih3, ih4, ih5⟩ := ih ((mkResolverService q).run fs p).fs p hpre2
    refine ⟨ih1, ?_, ih3, List.mem_append_right _ ih4, ?_⟩
    · rw [ih2]
      rfl
    · rw [ih5]
      simp only [mkResolverService, resolverService]
      exact resolverRun_dirs q.2.1 q.2.2 fs p

/-- Iterating only failing resolvers none of which reaches the streaming
step: the loop exhausts, the filesystem is untouched, and the loop logs no
terminal-failure line. -/
lemma tryServices_all_fail (svs : List (String × String × ResolverEnv))
    : ∀ fs p, (∀ q ∈ svs, envSucceeds q.2.2 = false ∧ reachesStream q.2.2 = false) →
      (tryServices (svs.map mkResolverService) fs p).succeeded = false ∧
      (tryServices (svs.map mkResolverService) fs p).fs = fs ∧
      (∀ e ∈ (tryServices (svs.map mkResolverService) fs p).logs,
        isTerminalFailure e = false) := by
  induction svs with
  | nil =>
    intro fs p _
    rw [List.map_nil, tryServices_nil]
    exact ⟨rfl, rfl, fun e he => absurd he (List.not_mem_nil e)⟩
  | cons q svs ih =>
    intro fs p hall
    obtain ⟨hq1, hq2⟩ := hall q (List.mem_cons_self q svs)
    have hrun : ((mkResolverService q).run fs p).result = .ok false := by
      simp only [mkResolverService, resolverService]
      rw [resolverRun_result, hq1]
    have hfs : ((mkResolverService q).run fs p).fs = fs := by
      simp only [mkResolverService, resolverService]
      rw [resolverRun_fs, resolverBody_fs, hq2]
      rfl
    have hlogs : ∀ e ∈ ((mkResolverService q).run fs p).logs, isTerminalFailure e = false := by
      intro e he
      simp only [mkResolverService, resolverService] at he
      rw [resolverRun_logs] at he
      by_cases hr : envRaises q.2.2 = true
      · rw [if_pos hr] at he
        rw [List.mem_singleton.mp he]
        rfl
      · rw [if_neg hr] at he
        exact absurd he (List.not_mem_nil e)
    rw [List.map_cons, tryServices_cons_false (mkResolverService q) _ fs p hrun, hfs]
    have hall2 : ∀ q2 ∈ svs, envSucceeds q2.2.2 = false ∧ reachesStream q2.2.2 = false :=
      fun q2 hq2m => hall q2 (List.mem_cons_of_mem q hq2m)
    obtain ⟨ih1, ih2, ih3⟩ := ih fs p hall2
    refine ⟨ih1, ih2, ?_⟩
    intro e he
    rcases List.mem_append.mp he with he | he
    · exact hlogs e he
    · exact ih3 e he

lemma download_track_skip_eq (download_dir : FsPath) (svs : List Service) (track : Track)
    (fs fs1 : FS) (hmk : fs.mkdirExistOk (artistDir download_dir track) = .ok fs1)
    (hex : fs1.fileExists (outputPath download_dir track) = true) :
    download_track download_dir svs track fs =
      .ok ⟨fs1, [.skip (outputPath download_dir track)], 0, []⟩ := by
  unfold download_track
  rw [hmk]
  simp only [hex, if_true]

lemma download_track_run_eq (download_dir : FsPath) (svs : List Service) (track : Track)
    (fs fs1 : FS) (hmk : fs.mkdirExistOk (artistDir download_dir track) = .ok fs1)
    (hne : fs1.fileExists (outputPath download_dir track) = false) :
    download_track download_dir svs track fs =
      (if (tryServices svs fs1 (outputPath download_dir track)).succeeded then
        .ok ⟨(tryServices svs fs1 (outputPath download_dir track)).fs,
          (tryServices svs fs1 (outputPath download_dir track)).logs,
          (tryServices svs fs1 (outputPath download_dir track)).net,
          (tryServices svs fs1 (outputPath download_dir track)).invoked⟩
      else
        .ok ⟨(tryServices svs fs1 (outputPath download_dir track)).fs,
          (tryServices svs fs1 (outputPath download_dir track)).logs ++
            [.terminalFailure track.title],
          (tryServices svs fs1 (outputPath download_dir track)).net,
          (tryServices svs fs1 (outputPath download_dir track)).invoked⟩) := by
  unfold download_track
  rw [hmk]
  simp only [hne, Bool.false_eq_true, if_false]

/-- C5: the output of `_sanitize_filename` contains none of the characters
< > : " / \ | ? *, contains no space, and has length at most 200. -/
theorem sanitize_filename_safe (s : String) :
    ((_sanitize_filename s).data.all
      (fun c => decide (c ∉ invalidChars) && decide (c ≠ ' '))) = true ∧
    (_sanitize_filename s).length ≤ 200 := by
  refine ⟨?_, sanitize_len s⟩
  rw [List.all_eq_true]
  intro c hc
  obtain ⟨h1, h2⟩ := sanitize_mem s c hc
  simp [h1, h2]

/-- C6: `_sanitize_filename` is idempotent. -/
theorem sanitize_filename_idempotent (s : String) :
    _sanitize_filename (_sanitize_filename s) = _sanitize_filename s := by
  have hmem := sanitize_mem s
  have hfilter :
      (_sanitize_filename s).data.filter (fun c => decide (c ∉ invalidChars)) =
        (_sanitize_filename s).data :=
    List.filter_eq_self.mpr (fun a ha => decide_eq_true (hmem a ha).1)
  have hmap :
      (_sanitize_filename s).data.map (fun c => if c = ' ' then '_' else c) =
        (_sanitize_filename s).data := by
    have := List.map_congr_left
      (l := (_sanitize_filename s).data)
      (f := fun c => if c = ' ' then '_' else c) (g := id)
      (fun a ha => if_neg (hmem a ha).2)
    rw [this, List.map_id]
  have htake :
      ((_sanitize_filename s).data).take 200 = (_sanitize_filename s).data := by
    have hl : (_sanitize_filename s).data.length ≤ 200 := sanitize_len s
    exact List.take_of_length_le hl
  have hdata : (_sanitize_filename (_sanitize_filename s)).data = (_sanitize_filename s).data := by
    rw [sanitize_data, hfilter, hmap, htake]
  exact String.ext hdata

/-- C8: a resolver never raises past its own boundary: for every network
environment (non-200 statuses, missing download element or link attribute,
and internal raises included) it returns a plain boolean, `true` exactly
when the attempt succeeded, and an internal raise is logged under the
resolver's own identity. -/
theorem resolver_never_raises (iname : String) (env : ResolverEnv) (fs : FS) (p : FsPath) :
    (resolverRun iname env fs p).result = .ok (envSucceeds env) ∧
    (resolverRun iname env fs p).logs =
      (if envRaises env then [.resolverError iname] else []) :=
  ⟨resolverRun_result iname env fs p, resolverRun_logs iname env fs p⟩

/-- C9: the streaming step opens the destination with a truncating binary
write, so whenever a resolver succeeds the destination's final content is
exactly that resolver's response body, whatever bytes (e.g. an earlier
failed resolver's partial write) the file held before. -/
theorem resolver_success_truncates (iname : String) (env : ResolverEnv) (fs : FS)
    (p : FsPath) (h : envSucceeds env = true) :
    ((resolverRun iname env fs p).fs).fileContent p = some (envWritten env) :=
  resolverRun_content iname env fs p (envSucceeds_reachesStream env h)

/-- Witness for C9 at a concrete input: the stale bytes [9, 9] are gone and
the file holds exactly the successful attempt's body. -/
theorem resolver_success_truncates_witness :
    envSucceeds okEnv = true ∧
    ((resolverRun "scdownloader" okEnv staleFs ["downloads", "t.mp3"]).fs).fileContent
        ["downloads", "t.mp3"] = some [1, 2, 3, 4] :=
  ⟨by decide,
   resolver_success_truncates "scdownloader" okEnv staleFs ["downloads", "t.mp3"] (by decide)⟩

/-- C1: with a priority list whose first k-1 resolvers fail (return False
or raise internally) and whose k-th succeeds, `download_track` invokes
exactly resolvers 1..k in priority order, stops right after resolver k,
and leaves resolver k's bytes as the destination file's content. -/
theorem fallback_stops_at_first_success (download_dir : FsPath) (track : Track) (fs : FS)
    (pres : List (String × String × ResolverEnv)) (kename kiname : String)
    (kenv : ResolverEnv) (rest : List Service)
    (hpre : ∀ q ∈ pres, envSucceeds q.2.2 = false)
    (hk : envSucceeds kenv = true)
    (hmk : fs.canMkdir (artistDir download_dir track) = true)
    (hne : fs.fileExists (outputPath download_dir track) = false) :
    ∃ r, download_track download_dir
        (pres.map mkResolverService ++ resolverService kename kiname kenv :: rest)
        track fs = .ok r ∧
      r.invoked = pres.map (fun q => q.1) ++ [kename] ∧
      r.fs.fileContent (outputPath download_dir track) = some (envWritten kenv) ∧
      LogEvent.success (outputPath download_dir track) ∈ r.logs := by
  obtain ⟨fs1, hmk1, hfiles⟩ := mkdir_canMkdir fs _ hmk
  have hne1 : fs1.fileExists (outputPath download_dir track) = false := by
    rw [fileExists_congr fs1 fs _ hfiles]
    exact hne
  obtain ⟨h1, h2, h3, h4, _⟩ :=
    tryServices_prefix_fail pres kename kiname kenv rest hk fs1
      (outputPath download_dir track) hpre
  rw [download_track_run_eq download_dir _ track fs fs1 hmk1 hne1, h1, if_pos rfl]
  exact ⟨_, rfl, h2, h3, h4⟩

/-- Witness for C1: scdownloader fails with a 404, soundcloudmp3 succeeds,
downloadsound is never invoked. -/
theorem fallback_stops_at_first_success_witness :
    ∃ r, download_track ["downloads"]
        ([("_try_scdownloader", "scdownloader", failEnv)].map mkResolverService ++
          resolverService "_try_soundcloudmp3" "soundcloudmp3" okEnv ::
            [_try_downloadsound failEnv2])
        ⟨"My Song", "DJ Test", "https://example.com/t/1"⟩ ⟨[["downloads"]], []⟩ = .ok r ∧
      r.invoked = [("_try_scdownloader", "scdownloader", failEnv)].map (fun q => q.1) ++
        ["_try_soundcloudmp3"] ∧
      r.fs.fileContent (outputPath ["downloads"] ⟨"My Song", "DJ Test", "https://example.com/t/1"⟩)
        = some (envWritten okEnv) ∧
      LogEvent.success (outputPath ["downloads"] ⟨"My Song", "DJ Test", "https://example.com/t/1"⟩)
        ∈ r.logs :=
  fallback_stops_at_first_success ["downloads"] ⟨"My Song", "DJ Test", "https://example.com/t/1"⟩
    ⟨[["downloads"]], []⟩ [("_try_scdownloader", "scdownloader", failEnv)]
    "_try_soundcloudmp3" "soundcloudmp3" okEnv [_try_downloadsound failEnv2]
    (by decide) (by decide) (by decide) (by decide)

/-- C2 counterexample: the claim "if all N resolvers fail the destination
file is not created" is false on the code: a single resolver whose chunk
read raises after `open(output_path, 'wb')` fails (all resolvers fail),
yet the truncating open has already created the destination file. -/
theorem all_fail_file_created_counterexample :
    envSucceeds ⟨.resp 200 (some (some "u")), .resp 200 (.failAfter [])⟩ = false ∧
    FS.fileExists ⟨[["downloads"]], []⟩ ["downloads", "a", "t.mp3"] = false ∧
    engineFileExists
      (download_track ["downloads"]
        [_try_scdownloader ⟨.resp 200 (some (some "u")), .resp 200 (.failAfter [])⟩]
        ⟨"t", "a", "u"⟩ ⟨[["downloads"]], []⟩)
      ["downloads", "a", "t.mp3"] = true := by
  decide

/-- C2 amended: if every resolver fails before reaching the streaming step
(non-200 status, missing element or link, or a raise before the file is
opened), the destination file is not created — the filesystem's files are
untouched — and the terminal failure is logged exactly once for the track. -/
theorem exhaustion_before_stream_no_file (download_dir : FsPath) (track : Track) (fs : FS)
    (svs : List (String × String × ResolverEnv))
    (hall : ∀ q ∈ svs, envSucceeds q.2.2 = false ∧ reachesStream q.2.2 = false)
    (hmk : fs.canMkdir (artistDir download_dir track) = true)
    (hne : fs.fileExists (outputPath download_dir track) = false) :
    ∃ r, download_track download_dir (svs.map mkResolverService) track fs = .ok r ∧
      r.fs.fileExists (outputPath download_dir track) = false ∧
      r.logs.countP isTerminalFailure = 1 := by
  obtain ⟨fs1, hmk1, hfiles⟩ := mkdir_canMkdir fs _ hmk
  have hne1 : fs1.fileExists (outputPath download_dir track) = false := by
    rw [fileExists_congr fs1 fs _ hfiles]
    exact hne
  obtain ⟨h1, h2, h3⟩ := tryServices_all_fail svs fs1 (outputPath download_dir track) hall
  rw [download_track_run_eq download_dir _ track fs fs1 hmk1 hne1, h1]
  simp only [Bool.false_eq_true, if_false]
  refine ⟨_, rfl, ?_, ?_⟩
  · rw [h2]
    exact hne1
  · rw [List.countP_append]
    have hz : (tryServices (svs.map mkResolverService) fs1
        (outputPath download_dir track)).logs.countP isTerminalFailure = 0 :=
      List.countP_eq_zero.mpr (fun a ha => by rw [h3 a ha]; exact Bool.false_ne_true)
    rw [hz]
    rfl

/-- Witness for the amended C2: two pre-stream failures leave no file and
log one terminal failure. -/
theorem exhaustion_before_stream_no_file_witness :
    ∃ r, download_track ["downloads"]
        ([("_try_scdownloader", "scdownloader", failEnv),
          ("_try_soundcloudmp3", "soundcloudmp3", failEnv2)].map mkResolverService)
        ⟨"t", "a", "u"⟩ ⟨[["downloads"]], []⟩ = .ok r ∧
      r.fs.fileExists (outputPath ["downloads"] ⟨"t", "a", "u"⟩) = false ∧
      r.logs.countP isTerminalFailure = 1 :=
  exhaustion_before_stream_no_file ["downloads"] ⟨"t", "a", "u"⟩ ⟨[["downloads"]], []⟩
    [("_try_scdownloader", "scdownloader", failEnv),
      ("_try_soundcloudmp3", "soundcloudmp3", failEnv2)]
    (by decide) (by decide) (by decide)

/-- C3: when the artist directory can be created (its parent, the download
root, exists — the startup code guarantees this), `download_track` returns
normally for every service list, track and filesystem: skip, success,
exhaustion and resolver-internal errors are all terminal, and no exception
propagates to the caller. -/
theorem download_track_never_raises (download_dir : FsPath) (download_services : List Service)
    (track : Track) (fs : FS)
    (hmk : fs.canMkdir (artistDir download_dir track) = true) :
    (download_track download_dir download_services track fs).isOk = true := by
  obtain ⟨fs1, hmk1, _⟩ := mkdir_canMkdir fs _ hmk
  by_cases hex : fs1.fileExists (outputPath download_dir track) = true
  · rw [download_track_skip_eq download_dir _ track fs fs1 hmk1 hex]
    rfl
  · have hne : fs1.fileExists (outputPath download_dir track) = false :=
      eq_false_of_ne_true hex
    rw [download_track_run_eq download_dir _ track fs fs1 hmk1 hne]
    by_cases hs : (tryServices download_services fs1
        (outputPath download_dir track)).succeeded = true
    · rw [hs, if_pos rfl]
      rfl
    · have hs2 : (tryServices download_services fs1
          (outputPath download_dir track)).succeeded = false :=
        eq_false_of_ne_true hs
      rw [hs2]
      simp only [Bool.false_eq_true, if_false]
      rfl

/-- Witness for C3 at a concrete input (empty service list: exhaustion). -/
theorem download_track_never_raises_witness :
    FS.canMkdir ⟨[["downloads"]], []⟩ (artistDir ["downloads"] ⟨"t", "a", "u"⟩) = true ∧
    (download_track ["downloads"] [] ⟨"t", "a", "u"⟩ ⟨[["downloads"]], []⟩).isOk = true :=
  ⟨by decide,
   download_track_never_raises ["downloads"] [] ⟨"t", "a", "u"⟩ ⟨[["downloads"]], []⟩ (by decide)⟩

/-- C4: when the destination file already exists, `download_track` invokes
no resolver, issues zero network calls, leaves every file's bytes
untouched, and returns after logging only the skip line. -/
theorem skip_when_destination_exists (download_dir : FsPath) (download_services : List Service)
    (track : Track) (fs : FS)
    (hmk : fs.canMkdir (artistDir download_dir track) = true)
    (hex : fs.fileExists (outputPath download_dir track) = true) :
    ∃ r, download_track download_dir download_services track fs = .ok r ∧
      r.fs.files = fs.files ∧ r.net = 0 ∧ r.invoked = [] ∧
      r.logs = [.skip (outputPath download_dir track)] := by
  obtain ⟨fs1, hmk1, hfiles⟩ := mkdir_canMkdir fs _ hmk
  have hex1 : fs1.fileExists (outputPath download_dir track) = true := by
    rw [fileExists_congr fs1 fs _ hfiles]
    exact hex
  rw [download_track_skip_eq download_dir _ track fs fs1 hmk1 hex1]
  exact ⟨_, rfl, hfiles, rfl, rfl, rfl⟩

/-- Witness for C4: an existing destination with bytes [5] is skipped. -/
theorem skip_when_destination_exists_witness :
    ∃ r, download_track ["downloads"] [_try_scdownloader okEnv] ⟨"t", "a", "u"⟩
        ⟨[["downloads"], ["downloads", "a"]], [(["downloads", "a", "t.mp3"], [5])]⟩ = .ok r ∧
      r.fs.files = FS.files ⟨[["downloads"], ["downloads", "a"]],
        [(["downloads", "a", "t.mp3"], [5])]⟩ ∧
      r.net = 0 ∧ r.invoked = [] ∧
      r.logs = [.skip (outputPath ["downloads"] ⟨"t", "a", "u"⟩)] :=
  skip_when_destination_exists ["downloads"] [_try_scdownloader okEnv] ⟨"t", "a", "u"⟩
    ⟨[["downloads"], ["downloads", "a"]], [(["downloads", "a", "t.mp3"], [5])]⟩
    (by decide) (by decide)

/-- C7: the destination `download_track` writes to is
root / sanitize(artist) / (sanitize(title) ++ ".mp3"): after a successful
resolver run the bytes are at exactly that path. -/
theorem destination_path_formula (download_dir : FsPath) (track : Track) (fs : FS)
    (ename iname : String) (env : ResolverEnv)
    (hk : envSucceeds env = true)
    (hmk : fs.canMkdir (artistDir download_dir track) = true)
    (hne : fs.fileExists (outputPath download_dir track) = false) :
    ∃ r, download_track download_dir [resolverService ename iname env] track fs = .ok r ∧
      r.fs.fileContent
        (pathJoin (pathJoin download_dir (_sanitize_filename track.artist))
          (_sanitize_filename track.title ++ ".mp3")) = some (envWritten env) := by
  obtain ⟨fs1, hmk1, hfiles⟩ := mkdir_canMkdir fs _ hmk
  have hne1 : fs1.fileExists (outputPath download_dir track) = false := by
    rw [fileExists_congr fs1 fs _ hfiles]
    exact hne
  obtain ⟨h1, _, h3, _, _⟩ :=
    tryServices_prefix_fail [] ename iname env [] hk fs1
      (outputPath download_dir track) (fun q hq => absurd hq (List.not_mem_nil q))
  rw [List.map_nil, List.nil_append] at h1 h3
  rw [download_track_run_eq download_dir _ track fs fs1 hmk1 hne1, h1, if_pos rfl]
  exact ⟨_, rfl, h3⟩

/-- Witness for C7: the spec's scenario — track "My Song" by "DJ Test",
root downloads/ — ends with the bytes at downloads/DJ_Test/My_Song.mp3. -/
theorem destination_path_formula_witness :
    pathJoin (pathJoin ["downloads"] (_sanitize_filename "DJ Test"))
      (_sanitize_filename "My Song" ++ ".mp3") = ["downloads", "DJ_Test", "My_Song.mp3"] ∧
    ∃ r, download_track ["downloads"]
        [resolverService "_try_scdownloader" "scdownloader" okEnv]
        ⟨"My Song", "DJ Test", "https://example.com/t/1"⟩ ⟨[["downloads"]], []⟩ = .ok r ∧
      r.fs.fileContent
        (pathJoin (pathJoin ["downloads"] (_sanitize_filename "DJ Test"))
          (_sanitize_filename "My Song" ++ ".mp3")) = some (envWritten okEnv) :=
  ⟨by decide,
   destination_path_formula ["downloads"] ⟨"My Song", "DJ Test", "https://example.com/t/1"⟩
     ⟨[["downloads"]], []⟩ "_try_scdownloader" "scdownloader" okEnv
     (by decide) (by decide) (by decide)⟩

/-- C10: when the artist sanitizes to the empty string, the pathlib join
with the empty segment returns the root itself, so `download_track` does
not fail: no artist subdirectory is created and a successful run leaves the
file at root / (sanitize(title) ++ ".mp3"). -/
theorem empty_artist_writes_under_root (download_dir : FsPath) (track : Track) (fs : FS)
    (ename iname : String) (env : ResolverEnv)
    (ha : _sanitize_filename track.artist = "")
    (hroot : download_dir ∈ fs.dirs)
    (hk : envSucceeds env = true)
    (hne : fs.fileExists (pathJoin download_dir (_sanitize_filename track.title ++ ".mp3"))
      = false) :
    artistDir download_dir track = download_dir ∧
    ∃ r, download_track download_dir [resolverService ename iname env] track fs = .ok r ∧
      r.fs.dirs = fs.dirs ∧
      r.fs.fileContent (pathJoin download_dir (_sanitize_filename track.title ++ ".mp3"))
        = some (envWritten env) := by
  have hart : artistDir download_dir track = download_dir := by
    unfold artistDir pathJoin
    rw [ha, if_pos rfl]
  have hout : outputPath download_dir track =
      pathJoin download_dir (_sanitize_filename track.title ++ ".mp3") := by
    unfold outputPath
    rw [hart]
  refine ⟨hart, ?_⟩
  have hmk1 : fs.mkdirExistOk (artistDir download_dir track) = .ok fs := by
    rw [hart]
    exact mkdir_mem fs download_dir hroot
  have hne1 : fs.fileExists (outputPath download_dir track) = false := by
    rw [hout]
    exact hne
  obtain ⟨h1, _, h3, _, h5⟩ :=
    tryServices_prefix_fail [] ename iname env [] hk fs
      (outputPath download_dir track) (fun q hq => absurd hq (List.not_mem_nil q))
  rw [List.map_nil, List.nil_append] at h1 h3 h5
  rw [download_track_run_eq download_dir _ track fs fs hmk1 hne1, h1, if_pos rfl]
  refine ⟨_, rfl, h5, ?_⟩
  rw [← hout]
  exact h3

/-- Witness for C10: an artist of only forbidden characters sanitizes to ""
and the track lands directly under downloads/. -/
theorem empty_artist_writes_under_root_witness :
    _sanitize_filename "<>" = "" ∧
    ∃ r, download_track ["downloads"]
        [resolverService "_try_scdownloader" "scdownloader" okEnv]
        ⟨"t", "<>", "u"⟩ ⟨[["downloads"]], []⟩ = .ok r ∧
      r.fs.dirs = FS.dirs ⟨[["downloads"]], []⟩ ∧
      r.fs.fileContent (pathJoin ["downloads"] (_sanitize_filename "t" ++ ".mp3"))
        = some (envWritten okEnv) :=
  ⟨by decide,
   (empty_artist_writes_under_root ["downloads"] ⟨"t", "<>", "u"⟩ ⟨[["downloads"]], []⟩
     "_try_scdownloader" "scdownloader" okEnv
     (by decide) (by decide) (by decide) (by decide)).2⟩

end SCDL
